import Mathlib

/-!
Verification model of the I2C master driver in `src/i2c.rs` of the
gd32e103-hal repository.

The driver is embedded shallowly:

* the status decoder macro `wait_for_flag!` (i2c.rs lines 186-208) becomes a
  pure function on an explicit `Stat0` register state;
* the polling loops `busy_wait!` / `busy_wait_cycles!` (lines 210-230) become
  a fueled loop over an abstract poll function and an abstract sequence of
  DWT cycle-counter readings, with 32-bit wrapping subtraction made explicit;
* the blocking driver (`send_start_and_wait`, `send_addr_and_wait`,
  `write_bytes_and_wait`, `write_without_stop`, `write`, `read`, `write_read`,
  lines 398-563) becomes a family of functions that thread an explicit
  counter state `St` and are driven by an environment `Env` assigning an
  outcome to every bounded busy-wait and a byte to every data-register read;
  each function returns its result, the new state, and the ordered list of
  register-level events it performed;
* clock programming (`I2c::init`, lines 273-312) and construction
  (`I2c::create_internal`, lines 240-264) become functions computing the
  ordered list of register writes; Rust panics (the `assert!`, integer
  division by zero) are modelled as `none` / a `panicked` result.
-/

namespace I2cModel

/-- The closed error set of the driver (`enum Error`, i2c.rs lines 19-31). -/
inductive Error where
  | bus
  | arbitration
  | acknowledge
  | overrun
deriving DecidableEq, Repr

/-- `nb::Error<Error>`: either a driver error or `WouldBlock`. -/
inductive NbErr where
  | other (e : Error)
  | wouldBlock
deriving DecidableEq, Repr

/-- The status flags that `wait_for_flag!` is instantiated with in the
driver: `sbsend`, `addsend`, `tbe`, `btc`, `rbne`. -/
inductive Flag where
  | sbsend
  | addsend
  | tbe
  | btc
  | rbne
deriving DecidableEq, Repr

/-- The result of one `wait_for_flag!` poll: `Ok(())`, `Err(Other(e))`, or
`Err(WouldBlock)`. -/
inductive NbRes where
  | ok
  | er (e : Error)
  | wouldBlock
deriving DecidableEq, Repr

/-- The state of the `STAT0` status register: the four error bits checked by
`wait_for_flag!` plus the five request flags the driver waits on. -/
structure Stat0 where
  berr : Bool
  lostarb : Bool
  aerr : Bool
  ouerr : Bool
  sbsend : Bool
  addsend : Bool
  tbe : Bool
  btc : Bool
  rbne : Bool
deriving DecidableEq, Repr

/-- Projection of the requested flag bit out of `Stat0`
(`stat0.$flag().bit_is_set()`). -/
def flag_bit (f : Flag) (st : Stat0) : Bool :=
  match f with
  | .sbsend => st.sbsend
  | .addsend => st.addsend
  | .tbe => st.tbe
  | .btc => st.btc
  | .rbne => st.rbne

/-- The status decoder `wait_for_flag!` (i2c.rs lines 186-208): reads
`stat0`, checks `berr`, `lostarb`, `aerr`, `ouerr` in that order, clearing
the reported bit by the corresponding `stat0.write(...)`; if no error is
present and the requested flag is set it returns `Ok(())`, otherwise
`Err(WouldBlock)`.  Returns the poll result together with the register
state after the read/write-to-clear side effect. -/
def wait_for_flag (f : Flag) (st : Stat0) : NbRes × Stat0 :=
  if st.berr then (.er .bus, { st with berr := false })
  else if st.lostarb then (.er .arbitration, { st with lostarb := false })
  else if st.aerr then (.er .acknowledge, { st with aerr := false })
  else if st.ouerr then (.er .overrun, { st with ouerr := false })
  else if flag_bit f st then (.ok, st)
  else (.wouldBlock, st)

/-- 32-bit wrapping subtraction `a.wrapping_sub(b)` on `u32` values
represented as naturals. -/
def wsub (a b : Nat) : Nat :=
  (a + 2 ^ 32 - b % 2 ^ 32) % 2 ^ 32

/-- The loop body of `busy_wait!` (i2c.rs lines 210-222): at iteration `i`
evaluate the poll; break with the result if it is not `WouldBlock`; break
with the (`WouldBlock`) result if the exit condition holds; otherwise loop.
`fuel` bounds the number of iterations so that the function is total; the
Rust loop corresponds to the limit of unbounded fuel, and `none` means the
fuel ran out before the loop exited. -/
def busy_wait_go (poll : Nat → NbRes) (stop : Nat → Bool) : Nat → Nat → Option NbRes
  | _, 0 => none
  | i, fuel + 1 =>
    let r := poll i
    if r ≠ NbRes.wouldBlock then some r
    else if stop i then some r
    else busy_wait_go poll stop (i + 1) fuel

/-- `busy_wait_cycles!` (i2c.rs lines 224-230): sample the DWT cycle counter
(`reading 0`) before the first poll, then run `busy_wait!` with exit
condition `DWT::cycle_count().wrapping_sub(started) >= cycles`, where the
counter reading taken during iteration `i` is `reading (i + 1)`. -/
def busy_wait_cycles (poll : Nat → NbRes) (reading : Nat → Nat) (budget fuel : Nat) :
    Option NbRes :=
  let started := reading 0
  busy_wait_go poll (fun i => decide (budget ≤ wsub (reading (i + 1)) started)) 0 fuel

/-! ## Blocking driver, trace model

Each blocking operation is driven by an environment `Env`:

* `Env.wait k` is the outcome of the `k`-th bounded busy-wait on a status
  flag (`busy_wait_cycles!(wait_for_flag!(..), ..)`): the flag was observed
  set, an error was decoded, or the cycle budget expired (`WouldBlock`);
* `Env.stopOk k` tells whether the `k`-th bounded wait for STOP completion
  (`busy_wait_cycles!(wait_for_stop(), ..)`, which can only yield `Ok` or
  `WouldBlock`) completed within its budget;
* `Env.data k` is the byte produced by the `k`-th read of the data register.

The state `St` counts how many of each of these have been consumed, so that
sequential composition threads the environment exactly as the hardware
interaction threads the real registers.  Every function also returns the
ordered list of register-level events it performed. -/

/-- Outcome of one bounded flag wait. -/
inductive Outcome where
  | ok
  | er (e : Error)
  | timeout
deriving DecidableEq, Repr

/-- Register-level events performed by the blocking driver, in program
order.  `reset` stands for the full soft reset `I2c::reset` (assert
`sreset`, clear `CTL0`, re-run `init`, i2c.rs lines 315-321). -/
inductive Event where
  | sendStart
  | reset
  | sendAddr (addr : Nat) (read : Bool)
  | readStat0
  | readStat1
  | setAckNak
  | setAckAck
  | setPoapNextAck
  | setPoapCurrentNak
  | waitFlag (f : Flag) (o : Outcome)
  | waitStop (ok : Bool)
  | readData (b : Nat)
  | writeData (b : Nat)
  | sendStop
deriving DecidableEq, Repr

/-- Environment driving a blocking operation (see section comment). -/
structure Env where
  wait : Nat → Outcome
  stopOk : Nat → Bool
  data : Nat → Nat

/-- Consumption counters: flag waits, stop waits, data reads. -/
structure St where
  kw : Nat
  ks : Nat
  kd : Nat
deriving DecidableEq, Repr

/-- Result of a blocking operation: success with a value, `Err(e)` from the
`nb` crate, or a Rust panic. -/
inductive RRes (α : Type) where
  | ok (a : α)
  | er (e : NbErr)
  | panicked
deriving DecidableEq, Repr

/-- The `nb` error produced by a failed bounded wait (`Other(e)` for a
decoded error, `WouldBlock` for an expired budget). -/
def outcomeErr : Outcome → NbErr
  | .ok => .wouldBlock
  | .er e => .other e
  | .timeout => .wouldBlock

/-- The `Result` value of a bounded wait propagated by `?`. -/
def outcomeRes : Outcome → RRes Unit
  | .ok => .ok ()
  | .er e => .er (.other e)
  | .timeout => .er .wouldBlock

/-- Loop body of `BlockingI2c::send_start_and_wait` (i2c.rs lines 398-414):
`while retries_left > 0 { send_start(); last_ret = busy_wait(start flag);
if err { reset() } else { break }; retries_left -= 1 }`, returning
`last_ret`, which starts as `Err(WouldBlock)`. -/
def ssw_aux (env : Env) : Nat → NbErr → St → RRes Unit × St × List Event
  | 0, last, s => (.er last, s, [])
  | n + 1, _, s =>
    let o := env.wait s.kw
    let s1 : St := { s with kw := s.kw + 1 }
    if o = Outcome.ok then
      (.ok (), s1, [.sendStart, .waitFlag .sbsend o])
    else
      let r := ssw_aux env n (outcomeErr o) s1
      (r.1, r.2.1, [.sendStart, .waitFlag .sbsend o, .reset] ++ r.2.2)

/-- `BlockingI2c::send_start_and_wait` with the configured retry count. -/
def send_start_and_wait (env : Env) (retries : Nat) (s : St) :
    RRes Unit × St × List Event :=
  ssw_aux env retries .wouldBlock s

/-- `BlockingI2c::send_addr_and_wait` (i2c.rs lines 416-424): read `stat0`,
write the address with direction bit, busy-wait for `addsend`; when the wait
fails specifically with `Err(Other(Acknowledge))`, issue `send_stop()`
before returning the error. -/
def send_addr_and_wait (env : Env) (addr : Nat) (rd : Bool) (s : St) :
    RRes Unit × St × List Event :=
  let o := env.wait s.kw
  let s1 : St := { s with kw := s.kw + 1 }
  let t : List Event := [.readStat0, .sendAddr addr rd, .waitFlag .addsend o]
  match o with
  | .ok => (.ok (), s1, t)
  | .er .acknowledge => (.er (.other .acknowledge), s1, t ++ [.sendStop])
  | .er e => (.er (.other e), s1, t)
  | .timeout => (.er .wouldBlock, s1, t)

/-- The `for byte in &bytes[1..]` loop of `write_bytes_and_wait` (i2c.rs
lines 432-435): for each remaining byte, busy-wait for `tbe` (propagating
failures with `?`), then write the byte to the data register. -/
def write_rest (env : Env) : List Nat → St → RRes Unit × St × List Event
  | [], s => (.ok (), s, [])
  | b :: rest, s =>
    let o := env.wait s.kw
    let s1 : St := { s with kw := s.kw + 1 }
    match o with
    | .ok =>
      let r := write_rest env rest s1
      (r.1, r.2.1, [.waitFlag .tbe .ok, .writeData b] ++ r.2.2)
    | _ => (.er (outcomeErr o), s1, [.waitFlag .tbe o])

/-- `BlockingI2c::write_bytes_and_wait` (i2c.rs lines 426-439): read `stat0`
and `stat1`, write `bytes[0]` (a panic when `bytes` is empty), run the
`tbe` loop over the remaining bytes, then busy-wait for `btc`. -/
def write_bytes_and_wait (env : Env) (bytes : List Nat) (s : St) :
    RRes Unit × St × List Event :=
  match bytes with
  | [] => (.panicked, s, [.readStat0, .readStat1])
  | b :: rest =>
    let r := write_rest env rest s
    match r.1 with
    | .ok _ =>
      let o := env.wait r.2.1.kw
      let s2 : St := { r.2.1 with kw := r.2.1.kw + 1 }
      (outcomeRes o, s2, [.readStat0, .readStat1, .writeData b] ++ r.2.2 ++ [.waitFlag .btc o])
    | _ => (r.1, r.2.1, [.readStat0, .readStat1, .writeData b] ++ r.2.2)

/-- `BlockingI2c::write_without_stop` (i2c.rs lines 441-450): start and
address phases (errors propagated by `?`), then the byte phase; when the
byte phase fails specifically with `Err(Other(Acknowledge))`, issue
`send_stop()` before returning its result. -/
def write_without_stop (env : Env) (retries addr : Nat) (bytes : List Nat) (s : St) :
    RRes Unit × St × List Event :=
  let r0 := send_start_and_wait env retries s
  match r0.1 with
  | .ok _ =>
    let r1 := send_addr_and_wait env addr false r0.2.1
    match r1.1 with
    | .ok _ =>
      let r2 := write_bytes_and_wait env bytes r1.2.1
      if r2.1 = RRes.er (.other .acknowledge) then
        (r2.1, r2.2.1, r0.2.2 ++ r1.2.2 ++ r2.2.2 ++ [.sendStop])
      else
        (r2.1, r2.2.1, r0.2.2 ++ r1.2.2 ++ r2.2.2)
    | _ => (r1.1, r1.2.1, r0.2.2 ++ r1.2.2)
  | _ => (r0.1, r0.2.1, r0.2.2)

/-- `Write::write` (i2c.rs lines 459-465): `write_without_stop` then
`send_stop()` and a bounded wait for STOP completion. -/
def write_op (env : Env) (retries addr : Nat) (bytes : List Nat) (s : St) :
    RRes Unit × St × List Event :=
  let r := write_without_stop env retries addr bytes s
  match r.1 with
  | .ok _ =>
    let sb := env.stopOk r.2.1.ks
    let s2 : St := { r.2.1 with ks := r.2.1.ks + 1 }
    ((if sb then .ok () else .er .wouldBlock), s2, r.2.2 ++ [.sendStop, .waitStop sb])
  | _ => (r.1, r.2.1, r.2.2)

/-- The leading-group loop of the `buffer_len` branch of `Read::read`
(i2c.rs lines 521-524): for each byte of `first_bytes`, busy-wait for
`rbne` (propagating failures with `?`) and read the data register. -/
def read_lead (env : Env) : Nat → St → RRes (List Nat) × St × List Event
  | 0, s => (.ok [], s, [])
  | n + 1, s =>
    let o := env.wait s.kw
    let s1 : St := { s with kw := s.kw + 1 }
    match o with
    | .ok =>
      let b := env.data s1.kd
      let s2 : St := { s1 with kd := s1.kd + 1 }
      let r := read_lead env n s2
      match r.1 with
      | .ok bs => (.ok (b :: bs), r.2.1, [.waitFlag .rbne .ok, .readData b] ++ r.2.2)
      | .er e => (.er e, r.2.1, [.waitFlag .rbne .ok, .readData b] ++ r.2.2)
      | .panicked => (.panicked, r.2.1, [.waitFlag .rbne .ok, .readData b] ++ r.2.2)
    | _ => (.er (outcomeErr o), s1, [.waitFlag .rbne o])

/-- `Read::read` (i2c.rs lines 474-540).  The three `match buffer.len()`
branches; the default branch covers length 0 as well as lengths `≥ 3`, and
for length 0 the split `buffer.split_at_mut(buffer_len - 3)` is a Rust
panic (usize underflow / out-of-range mid), reached only after the start
and address phases succeeded. -/
def read_op (env : Env) (retries addr len : Nat) (s : St) :
    RRes (List Nat) × St × List Event :=
  if len = 1 then
    let r0 := send_start_and_wait env retries s
    match r0.1 with
    | .ok _ =>
      let r1 := send_addr_and_wait env addr true r0.2.1
      match r1.1 with
      | .ok _ =>
        let pre := r0.2.2 ++ r1.2.2 ++ [Event.setAckNak, Event.readStat0, Event.readStat1, Event.sendStop]
        let o := env.wait r1.2.1.kw
        let s2 : St := { r1.2.1 with kw := r1.2.1.kw + 1 }
        match o with
        | .ok =>
          let b0 := env.data s2.kd
          let s3 : St := { s2 with kd := s2.kd + 1 }
          let sb := env.stopOk s3.ks
          let s4 : St := { s3 with ks := s3.ks + 1 }
          if sb then
            (.ok [b0], s4, pre ++ [.waitFlag .rbne .ok, .readData b0, .waitStop sb, .setAckAck])
          else
            (.er .wouldBlock, s4, pre ++ [.waitFlag .rbne .ok, .readData b0, .waitStop sb])
        | _ => (.er (outcomeErr o), s2, pre ++ [.waitFlag .rbne o])
      | .er e => (.er e, r1.2.1, r0.2.2 ++ r1.2.2)
      | .panicked => (.panicked, r1.2.1, r0.2.2 ++ r1.2.2)
    | .er e => (.er e, r0.2.1, r0.2.2)
    | .panicked => (.panicked, r0.2.1, r0.2.2)
  else if len = 2 then
    let r0 := send_start_and_wait env retries s
    match r0.1 with
    | .ok _ =>
      let r1 := send_addr_and_wait env addr true r0.2.1
      match r1.1 with
      | .ok _ =>
        let pre := [Event.setPoapNextAck] ++ r0.2.2 ++ r1.2.2 ++
          [Event.readStat0, Event.readStat1, Event.setAckNak]
        let o := env.wait r1.2.1.kw
        let s2 : St := { r1.2.1 with kw := r1.2.1.kw + 1 }
        match o with
        | .ok =>
          let b0 := env.data s2.kd
          let s3 : St := { s2 with kd := s2.kd + 1 }
          let b1 := env.data s3.kd
          let s4 : St := { s3 with kd := s3.kd + 1 }
          let sb := env.stopOk s4.ks
          let s5 : St := { s4 with ks := s4.ks + 1 }
          if sb then
            (.ok [b0, b1], s5, pre ++ [.waitFlag .btc .ok, .sendStop, .readData b0,
              .readData b1, .waitStop sb, .setPoapCurrentNak, .setAckAck])
          else
            (.er .wouldBlock, s5, pre ++ [.waitFlag .btc .ok, .sendStop, .readData b0,
              .readData b1, .waitStop sb])
        | _ => (.er (outcomeErr o), s2, pre ++ [.waitFlag .btc o])
      | .er e => (.er e, r1.2.1, [Event.setPoapNextAck] ++ r0.2.2 ++ r1.2.2)
      | .panicked => (.panicked, r1.2.1, [Event.setPoapNextAck] ++ r0.2.2 ++ r1.2.2)
    | .er e => (.er e, r0.2.1, [Event.setPoapNextAck] ++ r0.2.2)
    | .panicked => (.panicked, r0.2.1, [Event.setPoapNextAck] ++ r0.2.2)
  else
    let r0 := send_start_and_wait env retries s
    match r0.1 with
    | .ok _ =>
      let r1 := send_addr_and_wait env addr true r0.2.1
      match r1.1 with
      | .ok _ =>
        let pre := r0.2.2 ++ r1.2.2 ++ [Event.setAckAck, Event.readStat0, Event.readStat1]
        if len < 3 then (.panicked, r1.2.1, pre)
        else
          let r2 := read_lead env (len - 3) r1.2.1
          match r2.1 with
          | .ok bs =>
            let o := env.wait r2.2.1.kw
            let s3 : St := { r2.2.1 with kw := r2.2.1.kw + 1 }
            match o with
            | .ok =>
              let b0 := env.data s3.kd
              let s4 : St := { s3 with kd := s3.kd + 1 }
              let b1 := env.data s4.kd
              let s5 : St := { s4 with kd := s4.kd + 1 }
              let o2 := env.wait s5.kw
              let s6 : St := { s5 with kw := s5.kw + 1 }
              match o2 with
              | .ok =>
                let b2 := env.data s6.kd
                let s7 : St := { s6 with kd := s6.kd + 1 }
                let sb := env.stopOk s7.ks
                let s8 : St := { s7 with ks := s7.ks + 1 }
                if sb then
                  (.ok (bs ++ [b0, b1, b2]), s8, pre ++ r2.2.2 ++
                    [.waitFlag .btc .ok, .setAckNak, .readData b0, .sendStop, .readData b1,
                     .waitFlag .rbne .ok, .readData b2, .waitStop sb, .setAckAck])
                else
                  (.er .wouldBlock, s8, pre ++ r2.2.2 ++
                    [.waitFlag .btc .ok, .setAckNak, .readData b0, .sendStop, .readData b1,
                     .waitFlag .rbne .ok, .readData b2, .waitStop sb])
              | _ => (.er (outcomeErr o2), s6, pre ++ r2.2.2 ++
                  [.waitFlag .btc .ok, .setAckNak, .readData b0, .sendStop, .readData b1,
                   .waitFlag .rbne o2])
            | _ => (.er (outcomeErr o), s3, pre ++ r2.2.2 ++ [.waitFlag .btc o])
          | .er e => (.er e, r2.2.1, pre ++ r2.2.2)
          | .panicked => (.panicked, r2.2.1, pre ++ r2.2.2)
      | .er e => (.er e, r1.2.1, r0.2.2 ++ r1.2.2)
      | .panicked => (.panicked, r1.2.1, r0.2.2 ++ r1.2.2)
    | .er e => (.er e, r0.2.1, r0.2.2)
    | .panicked => (.panicked, r0.2.1, r0.2.2)

/-- `WriteRead::write_read` (i2c.rs lines 549-562): when `bytes` is
non-empty run `write_without_stop` (propagating failures); then when the
read buffer is non-empty run `read`, else when `bytes` was non-empty issue
`send_stop()` and wait for STOP completion; when both are empty do nothing.
The read buffer is represented by its length `len`, the filled contents by
the returned list. -/
def write_read (env : Env) (retries addr : Nat) (bytes : List Nat) (len : Nat) (s : St) :
    RRes (List Nat) × St × List Event :=
  if bytes.isEmpty then
    if len ≠ 0 then read_op env retries addr len s
    else (.ok [], s, [])
  else
    let r0 := write_without_stop env retries addr bytes s
    match r0.1 with
    | .ok _ =>
      if len ≠ 0 then
        let r1 := read_op env retries addr len r0.2.1
        (r1.1, r1.2.1, r0.2.2 ++ r1.2.2)
      else
        let sb := env.stopOk r0.2.1.ks
        let s1 : St := { r0.2.1 with ks := r0.2.1.ks + 1 }
        ((if sb then .ok [] else .er .wouldBlock), s1, r0.2.2 ++ [.sendStop, .waitStop sb])
    | .er e => (.er e, r0.2.1, r0.2.2)
    | .panicked => (.panicked, r0.2.1, r0.2.2)

/-! ## Clock programming and construction -/

/-- `enum DutyCycle` (i2c.rs lines 33-37). -/
inductive DutyCycle where
  | ratio2to1
  | ratio16to9
deriving DecidableEq, Repr

/-- `enum Mode` (i2c.rs lines 39-48); `Hertz` is represented by a natural
number of Hz. -/
inductive Mode where
  | standard (frequency : Nat)
  | fast (frequency : Nat) (duty : DutyCycle)
deriving DecidableEq, Repr

/-- `Mode::get_frequency` (i2c.rs lines 64-69). -/
def get_frequency : Mode → Nat
  | .standard f => f
  | .fast f _ => f

/-- The register writes performed by `I2c::init`, in program order. -/
inductive RegWrite where
  | ctl1 (i2cclk : Nat)
  | ctl0Disable
  | rt (risetime : Nat)
  | ckcfg (clkc : Nat) (dtcy : Bool) (fast : Bool)
  | ctl0Enable
deriving DecidableEq, Repr

/-- `I2c::init` (i2c.rs lines 273-312).  Fixed-width Rust arithmetic is
explicit: `(self.pclk1 / 1000000) as u16` is `% 2 ^ 16`, the `as u8` casts
on `i2cclk` and `risetime` are `% 2 ^ 8`, the `as u16` casts on the
divisor are `% 2 ^ 16` (applied before `.max`), and the `u16` product
`pclk1_mhz * 300` wraps (release overflow semantics).  A frequency of 0
makes the Rust divisor computation divide by zero, a panic, modelled as
`none`. -/
def init (mode : Mode) (pclk1 : Nat) : Option (List RegWrite) :=
  let f := get_frequency mode
  if f = 0 then none
  else
    let pclk1_mhz := (pclk1 / 1000000) % 2 ^ 16
    let body :=
      match mode with
      | .standard _ =>
        [RegWrite.rt ((pclk1_mhz + 1) % 2 ^ 16 % 2 ^ 8),
         RegWrite.ckcfg (max (pclk1 / (f * 2) % 2 ^ 16) 4) false false]
      | .fast _ .ratio2to1 =>
        [RegWrite.rt ((pclk1_mhz * 300 % 2 ^ 16 / 1000 + 1) % 2 ^ 8),
         RegWrite.ckcfg (max (pclk1 / (f * 3) % 2 ^ 16) 1) false true]
      | .fast _ .ratio16to9 =>
        [RegWrite.rt ((pclk1_mhz * 300 % 2 ^ 16 / 1000 + 1) % 2 ^ 8),
         RegWrite.ckcfg (max (pclk1 / (f * 25) % 2 ^ 16) 1) true true]
    some ([RegWrite.ctl1 (pclk1_mhz % 2 ^ 8), RegWrite.ctl0Disable] ++ body ++
      [RegWrite.ctl0Enable])

/-- `I2c::create_internal` (i2c.rs lines 240-264): after bus enable/reset
(external collaborators) it asserts `mode.get_frequency().0 <= 400_000`
(panic on violation, modelled as `none`) and then runs `init`. -/
def create_internal (mode : Mode) (pclk1 : Nat) : Option (List RegWrite) :=
  if get_frequency mode ≤ 400000 then init mode pclk1 else none

/-- The clock-programming register values exactly as claim C6 words them,
with no fixed-width truncation anywhere: standard mode rise-time
`pclk1_MHz + 1` and divisor `max (pclk1 / (f * 2)) 4`; fast mode rise-time
`pclk1_MHz * 300 / 1000 + 1` and divisor `max (pclk1 / (f * 3)) 1`
(`Ratio2to1`, duty bit clear) or `max (pclk1 / (f * 25)) 1` (`Ratio16to9`,
duty bit set), fast bit set; `pclk1_MHz = pclk1 / 1_000_000` truncated.
Used only to exhibit where the claim diverges from the code. -/
def claimed_init_c6 (mode : Mode) (pclk1 : Nat) : List RegWrite :=
  let pclk1_mhz := pclk1 / 1000000
  let body :=
    match mode with
    | .standard f =>
      [RegWrite.rt (pclk1_mhz + 1),
       RegWrite.ckcfg (max (pclk1 / (f * 2)) 4) false false]
    | .fast f .ratio2to1 =>
      [RegWrite.rt (pclk1_mhz * 300 / 1000 + 1),
       RegWrite.ckcfg (max (pclk1 / (f * 3)) 1) false true]
    | .fast f .ratio16to9 =>
      [RegWrite.rt (pclk1_mhz * 300 / 1000 + 1),
       RegWrite.ckcfg (max (pclk1 / (f * 25)) 1) true true]
  [RegWrite.ctl1 pclk1_mhz, RegWrite.ctl0Disable] ++ body ++ [RegWrite.ctl0Enable]

/-! ## Helpers for stating the claims -/

/-- Number of occurrences of an event in a trace. -/
def countEv (e : Event) (l : List Event) : Nat :=
  (l.filter (fun x => decide (x = e))).length

/-- Number of bounded busy-waits on a given flag in a trace, whatever their
outcome. -/
def countWaits (f : Flag) (l : List Event) : Nat :=
  (l.filter (fun x => match x with | .waitFlag g _ => decide (g = f) | _ => false)).length

/-- Whether an event touches the bus or the transfer machinery, as opposed
to a pure configuration-register access (ACK / ACK-position control,
status-register reads). -/
def bus_event : Event → Bool
  | .readStat0 => false
  | .readStat1 => false
  | .setAckAck => false
  | .setAckNak => false
  | .setPoapNextAck => false
  | .setPoapCurrentNak => false
  | _ => true

/-- Environment in which every bounded wait succeeds, parameterized by the
received-byte stream: the success path of the driver. -/
def envOk (d : Nat → Nat) : Env :=
  { wait := fun _ => .ok, stopOk := fun _ => true, data := d }

/-- Environment whose every bounded flag wait decodes a bus error:
exercises the failure path. -/
def envBus : Env :=
  { wait := fun _ => .er .bus, stopOk := fun _ => true, data := fun _ => 0 }

/-- Environment whose first two bounded flag waits succeed and whose later
ones decode an acknowledge failure: start and address phases pass, the data
phase is NAKed. -/
def envAckAfter2 : Env :=
  { wait := fun k => if k < 2 then .ok else .er .acknowledge,
    stopOk := fun _ => true, data := fun _ => 0 }

/-- The bytes delivered by `n` consecutive data-register reads starting at
read index `kd`. -/
def leadBytes (d : Nat → Nat) (kd n : Nat) : List Nat :=
  match n with
  | 0 => []
  | n + 1 => d kd :: leadBytes d (kd + 1) n

/-- The events of the leading-group loop on the success path: `n` blocks of
"busy-wait `rbne`, read the data register". -/
def leadEvents (d : Nat → Nat) (kd n : Nat) : List Event :=
  match n with
  | 0 => []
  | n + 1 => [.waitFlag .rbne .ok, .readData (d kd)] ++ leadEvents d (kd + 1) n

/-! ## Theorems -/

/-- Claim C3: on every poll the status decoder checks, in this fixed order,
bus error, arbitration loss, acknowledge failure, overrun, then the
requested flag; it reports the highest-priority error present and clears
that error's status bit; it returns success exactly when no error is
present and the requested flag is set, and otherwise reports
`WouldBlock` ("not yet ready") without touching the register. -/
theorem c3_status_decoder_priority :
    ∀ (f : Flag) (st : Stat0),
      ((wait_for_flag f st).1 = .er .bus ↔ st.berr = true) ∧
      ((wait_for_flag f st).1 = .er .arbitration ↔
        (st.berr = false ∧ st.lostarb = true)) ∧
      ((wait_for_flag f st).1 = .er .acknowledge ↔
        (st.berr = false ∧ st.lostarb = false ∧ st.aerr = true)) ∧
      ((wait_for_flag f st).1 = .er .overrun ↔
        (st.berr = false ∧ st.lostarb = false ∧ st.aerr = false ∧ st.ouerr = true)) ∧
      ((wait_for_flag f st).1 = .ok ↔
        (st.berr = false ∧ st.lostarb = false ∧ st.aerr = false ∧ st.ouerr = false ∧
          flag_bit f st = true)) ∧
      ((wait_for_flag f st).1 = .wouldBlock ↔
        (st.berr = false ∧ st.lostarb = false ∧ st.aerr = false ∧ st.ouerr = false ∧
          flag_bit f st = false)) ∧
      ((wait_for_flag f st).1 = .er .bus → (wait_for_flag f st).2.berr = false) ∧
      ((wait_for_flag f st).1 = .er .arbitration → (wait_for_flag f st).2.lostarb = false) ∧
      ((wait_for_flag f st).1 = .er .acknowledge → (wait_for_flag f st).2.aerr = false) ∧
      ((wait_for_flag f st).1 = .er .overrun → (wait_for_flag f st).2.ouerr = false) ∧
      (((wait_for_flag f st).1 = .ok ∨ (wait_for_flag f st).1 = .wouldBlock) →
        (wait_for_flag f st).2 = st) := by
  intro f st
  obtain ⟨b, l, a, o, x1, x2, x3, x4, x5⟩ := st
  cases b <;> cases l <;> cases a <;> cases o <;>
    simp [wait_for_flag, flag_bit] <;> cases f <;> simp [flag_bit] <;>
    split <;> simp_all

/-- Witness for C3 at a concrete register state: with both the bus-error
bit and the arbitration-loss bit set, the decoder reports the bus error
(the higher priority) and clears its bit. -/
theorem c3_status_decoder_priority_witness :
    (wait_for_flag Flag.sbsend
      ⟨true, true, false, false, true, false, false, false, false⟩).1 = .er .bus ∧
    (wait_for_flag Flag.sbsend
      ⟨true, true, false, false, true, false, false, false, false⟩).2.berr = false := by
  have h := c3_status_decoder_priority Flag.sbsend
    ⟨true, true, false, false, true, false, false, false, false⟩
  exact ⟨h.1.mpr rfl, h.2.2.2.2.2.2.1 (h.1.mpr rfl)⟩

/-- Unfolding equation: out of fuel. -/
theorem busy_wait_go_zero (poll : Nat → NbRes) (stop : Nat → Bool) (i : Nat) :
    busy_wait_go poll stop i 0 = none := rfl

/-- Unfolding equation for one loop iteration. -/
theorem busy_wait_go_succ (poll : Nat → NbRes) (stop : Nat → Bool) (i fuel : Nat) :
    busy_wait_go poll stop i (fuel + 1) =
      if poll i ≠ NbRes.wouldBlock then some (poll i)
      else if stop i then some (poll i)
      else busy_wait_go poll stop (i + 1) fuel := rfl

/-- Any value returned by the polling loop is the first poll result at
which the loop exits: every earlier poll was `WouldBlock` with the exit
condition still false, and a returned `WouldBlock` happens exactly when
the exit condition fired there. -/
theorem busy_wait_go_spec (poll : Nat → NbRes) (stop : Nat → Bool) :
    ∀ fuel i r, busy_wait_go poll stop i fuel = some r →
      ∃ j, i ≤ j ∧ poll j = r ∧
        (∀ k, i ≤ k → k < j → poll k = NbRes.wouldBlock ∧ stop k = false) ∧
        (r = NbRes.wouldBlock → stop j = true) := by
  intro fuel
  induction fuel with
  | zero => intro i r h; simp [busy_wait_go_zero] at h
  | succ n ih =>
    intro i r h
    rw [busy_wait_go_succ] at h
    by_cases hp : poll i = NbRes.wouldBlock
    · simp [hp] at h
      by_cases hs : stop i
      · simp [hs] at h
        exact ⟨i, le_rfl, by rw [hp, h], fun k hk1 hk2 => absurd (lt_of_le_of_lt hk1 hk2) (lt_irrefl i), fun _ => hs⟩
      · simp [hs] at h
        obtain ⟨j, hj1, hj2, hj3, hj4⟩ := ih (i + 1) r h
        refine ⟨j, le_trans (Nat.le_succ i) hj1, hj2, ?_, hj4⟩
        intro k hk1 hk2
        rcases Nat.eq_or_lt_of_le hk1 with hk | hk
        · exact ⟨hk ▸ hp, hk ▸ (by simpa using hs)⟩
        · exact hj3 k hk hk2
    · simp [hp] at h
      refine ⟨i, le_rfl, h.symm ▸ rfl, fun k hk1 hk2 => absurd (lt_of_le_of_lt hk1 hk2) (lt_irrefl i), ?_⟩
      intro hr; exact absurd (h ▸ hr) hp

/-- The polling loop exits once any in-range index satisfies the exit
condition (or an earlier poll returns a non-`WouldBlock` result). -/
theorem busy_wait_go_isSome (poll : Nat → NbRes) (stop : Nat → Bool) :
    ∀ fuel i, (∃ j, i ≤ j ∧ j < i + fuel ∧ stop j = true) →
      (busy_wait_go poll stop i fuel).isSome := by
  intro fuel
  induction fuel with
  | zero => intro i ⟨j, hj1, hj2, _⟩; omega
  | succ n ih =>
    intro i ⟨j, hj1, hj2, hj3⟩
    rw [busy_wait_go_succ]
    by_cases hp : poll i = NbRes.wouldBlock
    · by_cases hs : stop i
      · simp [hp, hs]
      · simp only [hp, hs]
        simp only [ne_eq, not_true_eq_false, if_false, Bool.false_eq_true, if_false]
        apply ih
        refine ⟨j, ?_, by omega, hj3⟩
        rcases Nat.eq_or_lt_of_le hj1 with hk | hk
        · exact absurd (hk ▸ hj3) (by simpa using hs)
        · omega
    · simp [hp]

/-- 32-bit wrapping subtraction of a start sample from a later sample of a
counter that has advanced by `k` ticks yields `k mod 2^32`. -/
theorem wsub_advance (c k : Nat) (hc : c < 2 ^ 32) :
    wsub ((c + k) % 2 ^ 32) c = k % 2 ^ 32 := by
  unfold wsub
  rw [Nat.mod_eq_of_lt hc]
  have h1 : (c + k) % 2 ^ 32 + 2 ^ 32 - c = (c + k) % 2 ^ 32 + (2 ^ 32 - c) := by omega
  rw [h1, Nat.mod_add_mod]
  have h2 : c + k + (2 ^ 32 - c) = 2 ^ 32 + k := by omega
  rw [h2, Nat.add_mod_left]

/-- Claim C4: `busy_wait_cycles!` samples the cycle counter before the
first poll (`reading 0` is the `started` sample by construction), performs
at least one poll and returns its result immediately when it is not
`WouldBlock`; whenever it returns a non-`WouldBlock` result, every earlier
poll was `WouldBlock` with wrapped elapsed cycles still below the budget;
whenever it returns `WouldBlock` as a terminal outcome, the wrapped
elapsed count at that poll had reached the budget, and never fewer; and
against a free-running counter that ticks at least once per poll
(modelled as exactly one tick per loop-condition sample) the wait
terminates within `budget + 1` iterations. -/
theorem c4_busy_wait_cycles (poll : Nat → NbRes) (reading : Nat → Nat) (budget fuel : Nat) :
    (∀ r, poll 0 = r → r ≠ NbRes.wouldBlock →
      busy_wait_cycles poll reading budget (fuel + 1) = some r) ∧
    (∀ r, r ≠ NbRes.wouldBlock → busy_wait_cycles poll reading budget fuel = some r →
      ∃ j, poll j = r ∧ ∀ k, k < j →
        poll k = NbRes.wouldBlock ∧ wsub (reading (k + 1)) (reading 0) < budget) ∧
    (busy_wait_cycles poll reading budget fuel = some NbRes.wouldBlock →
      ∃ j, poll j = NbRes.wouldBlock ∧ budget ≤ wsub (reading (j + 1)) (reading 0) ∧
        ∀ k, k < j →
          poll k = NbRes.wouldBlock ∧ wsub (reading (k + 1)) (reading 0) < budget) ∧
    ((∀ i, reading i = (reading 0 + i) % 2 ^ 32) → budget < 2 ^ 32 → budget < fuel →
      (busy_wait_cycles poll reading budget fuel).isSome) := by
  refine ⟨?_, ?_, ?_, ?_⟩
  · intro r hr hne
    unfold busy_wait_cycles
    rw [busy_wait_go_succ]
    simp [hr, hne]
  · intro r hne h
    obtain ⟨j, _, hj2, hj3, _⟩ := busy_wait_go_spec _ _ fuel 0 r h
    refine ⟨j, hj2, fun k hk => ?_⟩
    obtain ⟨h1, h2⟩ := hj3 k (Nat.zero_le k) hk
    refine ⟨h1, ?_⟩
    have := of_decide_eq_false h2
    omega
  · intro h
    obtain ⟨j, _, hj2, hj3, hj4⟩ := busy_wait_go_spec _ _ fuel 0 _ h
    refine ⟨j, hj2, of_decide_eq_true (hj4 rfl), fun k hk => ?_⟩
    obtain ⟨h1, h2⟩ := hj3 k (Nat.zero_le k) hk
    have := of_decide_eq_false h2
    exact ⟨h1, by omega⟩
  · intro hfree hb hf
    have hc : reading 0 < 2 ^ 32 := by
      have := hfree 0
      simp at this
      rw [this]
      exact Nat.mod_lt _ (by norm_num)
    apply busy_wait_go_isSome
    refine ⟨budget - 1 + 1 - 1, Nat.zero_le _, by omega, ?_⟩
    have helapsed : wsub (reading (budget - 1 + 1 - 1 + 1)) (reading 0) =
        (budget - 1 + 1) % 2 ^ 32 := by
      rw [hfree (budget - 1 + 1 - 1 + 1)]
      have : budget - 1 + 1 - 1 + 1 = budget - 1 + 1 := by omega
      rw [this, wsub_advance _ _ hc]
    rw [decide_eq_true_eq, helapsed, Nat.mod_eq_of_lt (by omega)]
    omega

/-- Witness for C4 at concrete inputs: a poll that is immediately ready
returns after one poll, and a poll that is never ready terminates against
a unit-step counter. -/
theorem c4_busy_wait_cycles_witness :
    busy_wait_cycles (fun _ => NbRes.ok) (fun i => i % 2 ^ 32) 3 1 = some NbRes.ok ∧
    (busy_wait_cycles (fun _ => NbRes.wouldBlock) (fun i => i % 2 ^ 32) 3 10).isSome := by
  constructor
  · exact (c4_busy_wait_cycles (fun _ => NbRes.ok) (fun i => i % 2 ^ 32) 3 0).1
      NbRes.ok rfl (by simp)
  · exact (c4_busy_wait_cycles (fun _ => NbRes.wouldBlock) (fun i => i % 2 ^ 32) 3 10).2.2.2
      (fun i => by simp) (by norm_num) (by norm_num)

/-- Event counts distribute over trace concatenation. -/
theorem countEv_append (e : Event) (l1 l2 : List Event) :
    countEv e (l1 ++ l2) = countEv e l1 + countEv e l2 := by
  simp [countEv, List.filter_append]

/-- Flag-wait counts distribute over trace concatenation. -/
theorem countWaits_append (f : Flag) (l1 l2 : List Event) :
    countWaits f (l1 ++ l2) = countWaits f l1 + countWaits f l2 := by
  simp [countWaits, List.filter_append]

/-- Unfolding equation: no retries left returns the last result. -/
theorem ssw_aux_zero (env : Env) (last : NbErr) (s : St) :
    ssw_aux env 0 last s = (.er last, s, []) := rfl

/-- Unfolding equation for one retry-loop iteration. -/
theorem ssw_aux_succ (env : Env) (n : Nat) (last : NbErr) (s : St) :
    ssw_aux env (n + 1) last s =
      if env.wait s.kw = Outcome.ok then
        (.ok (), { s with kw := s.kw + 1 },
         [.sendStart, .waitFlag .sbsend (env.wait s.kw)])
      else
        ((ssw_aux env n (outcomeErr (env.wait s.kw)) { s with kw := s.kw + 1 }).1,
         (ssw_aux env n (outcomeErr (env.wait s.kw)) { s with kw := s.kw + 1 }).2.1,
         [.sendStart, .waitFlag .sbsend (env.wait s.kw), .reset] ++
           (ssw_aux env n (outcomeErr (env.wait s.kw)) { s with kw := s.kw + 1 }).2.2) := rfl

/-- `send_start_and_wait` when every one of the `n + 1` attempts fails:
the result is the error of the last attempt, and each attempt contributed
one `send_start`, one bounded start-flag wait and one soft reset. -/
theorem ssw_aux_all_fail (env : Env) :
    ∀ n last s, (∀ k, k < n + 1 → env.wait (s.kw + k) ≠ Outcome.ok) →
      (ssw_aux env (n + 1) last s).1 = .er (outcomeErr (env.wait (s.kw + n))) ∧
      countEv .reset (ssw_aux env (n + 1) last s).2.2 = n + 1 ∧
      countEv .sendStart (ssw_aux env (n + 1) last s).2.2 = n + 1 ∧
      countWaits .sbsend (ssw_aux env (n + 1) last s).2.2 = n + 1 := by
  intro n
  induction n with
  | zero =>
    intro last s h
    have h0 : env.wait s.kw ≠ Outcome.ok := by simpa using h 0 (by norm_num)
    rw [ssw_aux_succ]
    simp [h0, ssw_aux_zero, countEv, countWaits]
  | succ m ih =>
    intro last s h
    have h0 : env.wait s.kw ≠ Outcome.ok := by simpa using h 0 (by omega)
    obtain ⟨h1, h2, h3, h4⟩ := ih (outcomeErr (env.wait s.kw)) { s with kw := s.kw + 1 }
      (fun k hk => by
        have := h (k + 1) (by omega)
        simpa [Nat.add_assoc, Nat.add_comm 1 k] using this)
    rw [ssw_aux_succ]
    simp only [h0, if_false]
    refine ⟨?_, ?_, ?_, ?_⟩
    · simpa [Nat.add_assoc, Nat.add_comm 1 m] using h1
    · simp only [countEv_append, h2]
      simp [countEv]
      omega
    · simp only [countEv_append, h3]
      simp [countEv]
      omega
    · simp only [countWaits_append, h4]
      simp [countWaits]
      omega

/-- `send_start_and_wait` when attempt `j` (0-based) is the first to
succeed: the result is `Ok(())` after exactly `j` soft resets and `j + 1`
start attempts. -/
theorem ssw_aux_success (env : Env) :
    ∀ n j last s, j < n → env.wait (s.kw + j) = Outcome.ok →
      (∀ k, k < j → env.wait (s.kw + k) ≠ Outcome.ok) →
      (ssw_aux env n last s).1 = .ok () ∧
      countEv .reset (ssw_aux env n last s).2.2 = j ∧
      countEv .sendStart (ssw_aux env n last s).2.2 = j + 1 ∧
      countWaits .sbsend (ssw_aux env n last s).2.2 = j + 1 := by
  intro n
  induction n with
  | zero => intro j last s hj; omega
  | succ m ih =>
    intro j last s hj hok hbefore
    match j with
    | 0 =>
      have h0 : env.wait s.kw = Outcome.ok := by simpa using hok
      rw [ssw_aux_succ]
      simp [h0, countEv, countWaits]
    | j + 1 =>
      have h0 : env.wait s.kw ≠ Outcome.ok := by simpa using hbefore 0 (by omega)
      obtain ⟨h1, h2, h3, h4⟩ := ih j (outcomeErr (env.wait s.kw)) { s with kw := s.kw + 1 }
        (by omega)
        (by simpa [Nat.add_assoc, Nat.add_comm 1 j] using hok)
        (fun k hk => by
          have := hbefore (k + 1) (by omega)
          simpa [Nat.add_assoc, Nat.add_comm 1 k] using this)
      rw [ssw_aux_succ]
      simp only [h0, if_false]
      refine ⟨h1, ?_, ?_, ?_⟩
      · simp only [countEv_append, h2]
        simp [countEv]
        omega
      · simp only [countEv_append, h3]
        simp [countEv]
        omega
      · simp only [countWaits_append, h4]
        simp [countWaits]
        omega

/-- `send_start_and_wait` never issues more start attempts than the
configured retry count. -/
theorem ssw_aux_start_le (env : Env) :
    ∀ n last s, countEv .sendStart (ssw_aux env n last s).2.2 ≤ n := by
  intro n
  induction n with
  | zero => intro last s; simp [ssw_aux_zero, countEv]
  | succ m ih =>
    intro last s
    by_cases h0 : env.wait s.kw = Outcome.ok
    · rw [ssw_aux_succ]
      simp [h0, countEv]
    · rw [ssw_aux_succ]
      simp only [h0, if_false, countEv_append]
      have := ih (outcomeErr (env.wait s.kw)) { s with kw := s.kw + 1 }
      have hpre : countEv .sendStart
          [Event.sendStart, Event.waitFlag .sbsend (env.wait s.kw), Event.reset] = 1 := by
        simp [countEv]
      omega

/-- Claim C2: for `start_retries ≥ 1` the blocking START procedure makes at
most `start_retries` attempts, each issuing `send_start()` followed by one
bounded wait for the start flag; when all attempts fail it returns the
error observed on the last attempt after exactly `start_retries` soft
resets; when attempt `j` is the first success it stops there, returning
success after exactly `j` soft resets and `j + 1` attempts. -/
theorem c2_start_retry (env : Env) (s : St) (n : Nat) (hn : 1 ≤ n) :
    countEv .sendStart (send_start_and_wait env n s).2.2 ≤ n ∧
    ((∀ k, k < n → env.wait (s.kw + k) ≠ Outcome.ok) →
      (send_start_and_wait env n s).1 = .er (outcomeErr (env.wait (s.kw + (n - 1)))) ∧
      countEv .reset (send_start_and_wait env n s).2.2 = n ∧
      countEv .sendStart (send_start_and_wait env n s).2.2 = n ∧
      countWaits .sbsend (send_start_and_wait env n s).2.2 = n) ∧
    (∀ j, j < n → env.wait (s.kw + j) = Outcome.ok →
      (∀ k, k < j → env.wait (s.kw + k) ≠ Outcome.ok) →
      (send_start_and_wait env n s).1 = .ok () ∧
      countEv .reset (send_start_and_wait env n s).2.2 = j ∧
      countEv .sendStart (send_start_and_wait env n s).2.2 = j + 1 ∧
      countWaits .sbsend (send_start_and_wait env n s).2.2 = j + 1) := by
  obtain ⟨m, rfl⟩ : ∃ m, n = m + 1 := ⟨n - 1, by omega⟩
  refine ⟨ssw_aux_start_le env (m + 1) .wouldBlock s, ?_, ?_⟩
  · intro h
    have := ssw_aux_all_fail env m .wouldBlock s h
    simpa [send_start_and_wait] using this
  · intro j hj hok hbefore
    exact ssw_aux_success env (m + 1) j .wouldBlock s hj hok hbefore

/-- Witness for C2: two all-failing attempts return the last error (a bus
error here) and perform exactly two soft resets and two start attempts. -/
theorem c2_start_retry_witness :
    (send_start_and_wait envBus 2 ⟨0, 0, 0⟩).1 = .er (.other .bus) ∧
    countEv .reset (send_start_and_wait envBus 2 ⟨0, 0, 0⟩).2.2 = 2 ∧
    countEv .sendStart (send_start_and_wait envBus 2 ⟨0, 0, 0⟩).2.2 = 2 := by
  have h := (c2_start_retry envBus ⟨0, 0, 0⟩ 2 (by norm_num)).2.1
    (fun k _ => by simp [envBus])
  exact ⟨h.1, h.2.1, h.2.2.1⟩

/-- Claim C10: with `start_retries = 0` the START procedure returns
`Err(WouldBlock)` without issuing `send_start()`, polling, or resetting
(its trace is empty), and consequently `write`, `read`, and any
`write_read` with work to do fail with `Err(WouldBlock)` without any bus
activity (at most the ACK-position configuration write of the two-byte
read branch appears in the trace). -/
theorem c10_zero_retries (env : Env) (s : St) (addr : Nat) (bytes : List Nat) (len : Nat) :
    send_start_and_wait env 0 s = (.er .wouldBlock, s, []) ∧
    write_op env 0 addr bytes s = (.er .wouldBlock, s, []) ∧
    (read_op env 0 addr len s).1 = .er .wouldBlock ∧
    (∀ e ∈ (read_op env 0 addr len s).2.2, bus_event e = false) ∧
    ((bytes ≠ [] ∨ len ≠ 0) →
      (write_read env 0 addr bytes len s).1 = .er .wouldBlock ∧
      ∀ e ∈ (write_read env 0 addr bytes len s).2.2, bus_event e = false) := by
  have hssw : send_start_and_wait env 0 s = (.er .wouldBlock, s, []) := rfl
  have hwws : write_without_stop env 0 addr bytes s = (.er .wouldBlock, s, []) := rfl
  have hread : (read_op env 0 addr len s).1 = .er .wouldBlock ∧
      ∀ e ∈ (read_op env 0 addr len s).2.2, bus_event e = false := by
    rcases len with _ | _ | _ | len <;>
      simp [read_op, send_start_and_wait, ssw_aux, bus_event]
  refine ⟨hssw, ?_, hread.1, hread.2, ?_⟩
  · simp [write_op, hwws]
  · intro hwork
    rcases hb : bytes with _ | ⟨b, rest⟩
    · have hlen : len ≠ 0 := by
        rcases hwork with h | h
        · exact absurd hb h
        · exact h
      rw [write_read]
      simp only [List.isEmpty_nil, if_true, hlen, ne_eq, not_false_eq_true, if_true]
      exact hread
    · rw [write_read]
      simp only [List.isEmpty_cons, Bool.false_eq_true, if_false]
      rw [hb] at hwws
      simp [hwws]

/-- Witness for C10: `write_read` of one byte out and two bytes back with
zero retries fails with `WouldBlock` and performs no bus activity. -/
theorem c10_zero_retries_witness :
    (write_read envBus 0 80 [1] 2 ⟨0, 0, 0⟩).1 = .er .wouldBlock := by
  exact ((c10_zero_retries envBus ⟨0, 0, 0⟩ 80 [1] 2).2.2.2.2
    (Or.inl (by simp))).1

/-- The retry loop never issues a STOP condition. -/
theorem ssw_aux_no_stop (env : Env) :
    ∀ n last s, countEv .sendStop (ssw_aux env n last s).2.2 = 0 := by
  intro n
  induction n with
  | zero => intro last s; simp [ssw_aux_zero, countEv]
  | succ m ih =>
    intro last s
    by_cases h0 : env.wait s.kw = Outcome.ok
    · rw [ssw_aux_succ]; simp [h0, countEv]
    · rw [ssw_aux_succ]
      simp only [h0, if_false, countEv_append, ih]
      simp [countEv]

/-- The `tbe` loop of the byte phase never issues a STOP condition. -/
theorem write_rest_no_stop (env : Env) :
    ∀ bytes s, countEv .sendStop (write_rest env bytes s).2.2 = 0 := by
  intro bytes
  induction bytes with
  | nil => intro s; simp [write_rest, countEv]
  | cons b rest ih =>
    intro s
    rw [write_rest]
    rcases h : env.wait s.kw with _ | e | _
    · simp only [countEv_append, ih]
      simp [countEv]
    · simp [countEv]
    · simp [countEv]

/-- `write_bytes_and_wait` never issues a STOP condition itself. -/
theorem write_bytes_no_stop (env : Env) (bytes : List Nat) (s : St) :
    countEv .sendStop (write_bytes_and_wait env bytes s).2.2 = 0 := by
  rcases bytes with _ | ⟨b, rest⟩
  · simp [write_bytes_and_wait, countEv]
  · rw [write_bytes_and_wait]
    have hr := write_rest_no_stop env rest s
    rcases h : (write_rest env rest s).1 with _ | e | _ <;>
      simp only [h, countEv_append, hr] <;> simp [countEv]

/-- Shape of `write_without_stop` once the start and address phases have
succeeded: the fixed start/address prefix, the byte-phase trace, and a
final `send_stop()` exactly when the byte phase failed with an Acknowledge
error. -/
theorem write_without_stop_after_phases (env : Env) (addr rr : Nat) (bytes : List Nat)
    (s : St) (h1 : env.wait s.kw = Outcome.ok) (h2 : env.wait (s.kw + 1) = Outcome.ok) :
    write_without_stop env (rr + 1) addr bytes s =
      ((write_bytes_and_wait env bytes { s with kw := s.kw + 1 + 1 }).1,
       (write_bytes_and_wait env bytes { s with kw := s.kw + 1 + 1 }).2.1,
       [Event.sendStart, .waitFlag .sbsend .ok, .readStat0, .sendAddr addr false,
        .waitFlag .addsend .ok] ++
         (write_bytes_and_wait env bytes { s with kw := s.kw + 1 + 1 }).2.2 ++
         (if (write_bytes_and_wait env bytes { s with kw := s.kw + 1 + 1 }).1 =
             RRes.er (.other .acknowledge)
          then [Event.sendStop] else [])) := by
  have e0 : send_start_and_wait env (rr + 1) s =
      (.ok (), { s with kw := s.kw + 1 }, [.sendStart, .waitFlag .sbsend .ok]) := by
    rw [send_start_and_wait, ssw_aux_succ]
    simp [h1]
  have e1 : send_addr_and_wait env addr false { s with kw := s.kw + 1 } =
      (.ok (), { s with kw := s.kw + 1 + 1 },
       [.readStat0, .sendAddr addr false, .waitFlag .addsend .ok]) := by
    rw [send_addr_and_wait]
    simp [h2]
  rw [write_without_stop, e0, e1]
  by_cases hc : (write_bytes_and_wait env bytes { s with kw := s.kw + 1 + 1 }).1 =
      RRes.er (.other .acknowledge)
  · simp [hc]
  · simp [hc]

/-- Claim C5: an Acknowledge error in the address phase, or in the data
phase of a write, triggers exactly one `send_stop()` (the last event of the
trace) before the error propagates; any other error in those phases
propagates with no `send_stop()` at all. -/
theorem c5_ack_error_stop (env : Env) (addr : Nat) (rd : Bool) (bytes : List Nat)
    (s : St) (rr : Nat) :
    ((send_addr_and_wait env addr rd s).1 = .er (.other .acknowledge) →
      countEv .sendStop (send_addr_and_wait env addr rd s).2.2 = 1 ∧
      (send_addr_and_wait env addr rd s).2.2.getLast? = some .sendStop) ∧
    (∀ e, (send_addr_and_wait env addr rd s).1 = .er e → e ≠ .other .acknowledge →
      countEv .sendStop (send_addr_and_wait env addr rd s).2.2 = 0) ∧
    (env.wait s.kw = Outcome.ok → env.wait (s.kw + 1) = Outcome.ok →
      ((write_without_stop env (rr + 1) addr bytes s).1 = .er (.other .acknowledge) →
        countEv .sendStop (write_without_stop env (rr + 1) addr bytes s).2.2 = 1 ∧
        (write_without_stop env (rr + 1) addr bytes s).2.2.getLast? = some .sendStop) ∧
      (∀ e, (write_without_stop env (rr + 1) addr bytes s).1 = .er e →
        e ≠ .other .acknowledge →
        countEv .sendStop (write_without_stop env (rr + 1) addr bytes s).2.2 = 0)) := by
  refine ⟨?_, ?_, ?_⟩
  · intro hr
    rw [send_addr_and_wait] at hr ⊢
    rcases h : env.wait s.kw with _ | e | _ <;> simp only [h] at hr ⊢
    · simp at hr
    · rcases e with _ | _ | _ | _ <;> simp_all [countEv]
    · simp at hr
  · intro e hr hne
    rw [send_addr_and_wait] at hr ⊢
    rcases h : env.wait s.kw with _ | e2 | _ <;> simp only [h] at hr ⊢
    · simp at hr
    · rcases e2 with _ | _ | _ | _ <;> simp_all [countEv]
    · simp_all [countEv]
  · intro h1 h2
    have key := write_without_stop_after_phases env addr rr bytes s h1 h2
    have hb := write_bytes_no_stop env bytes { s with kw := s.kw + 1 + 1 }
    constructor
    · intro hr
      rw [key] at hr ⊢
      simp only at hr
      rw [if_pos hr]
      constructor
      · simp only [countEv_append, hb]
        simp [countEv]
      · exact List.getLast?_concat _
    · intro e hr he
      rw [key] at hr ⊢
      simp only at hr
      have hne : (write_bytes_and_wait env bytes { s with kw := s.kw + 1 + 1 }).1 ≠
          RRes.er (.other .acknowledge) := by
        rw [hr]
        simpa using he
      rw [if_neg hne]
      simp only [countEv_append, hb, List.append_nil]
      simp [countEv]

/-- Witness for C5: with the start and address waits succeeding and the
byte-phase wait NAKed, `write_without_stop` emits exactly one STOP; an
address-phase NAK makes `send_addr_and_wait` emit exactly one STOP. -/
theorem c5_ack_error_stop_witness :
    countEv .sendStop (write_without_stop envAckAfter2 1 80 [7] ⟨0, 0, 0⟩).2.2 = 1 ∧
    countEv .sendStop (send_addr_and_wait envAckAfter2 80 true ⟨2, 0, 0⟩).2.2 = 1 := by
  constructor
  · exact (((c5_ack_error_stop envAckAfter2 80 true [7] ⟨0, 0, 0⟩ 0).2.2
      (by simp [envAckAfter2]) (by simp [envAckAfter2])).1 (by decide)).1
  · exact ((c5_ack_error_stop envAckAfter2 80 true [7] ⟨2, 0, 0⟩ 0).1 (by decide)).1

/-- Every bounded flag wait succeeds in `envOk`. -/
theorem envOk_wait (d : Nat → Nat) (k : Nat) : (envOk d).wait k = Outcome.ok := rfl

/-- Every bounded STOP wait succeeds in `envOk`. -/
theorem envOk_stop (d : Nat → Nat) (k : Nat) : (envOk d).stopOk k = true := rfl

/-- Data reads in `envOk` come from the byte stream `d`. -/
theorem envOk_data (d : Nat → Nat) (k : Nat) : (envOk d).data k = d k := rfl

/-- The leading group collects exactly `n` bytes. -/
theorem leadBytes_length (d : Nat → Nat) : ∀ n kd, (leadBytes d kd n).length = n := by
  intro n
  induction n with
  | zero => intro kd; simp [leadBytes]
  | succ m ih => intro kd; simp [leadBytes, ih]

/-- On the success path the leading-group loop reads `n` bytes in stream
order, one bounded `rbne` wait before each. -/
theorem read_lead_envOk (d : Nat → Nat) :
    ∀ n s, read_lead (envOk d) n s =
      (.ok (leadBytes d s.kd n), ⟨s.kw + n, s.ks, s.kd + n⟩, leadEvents d s.kd n) := by
  intro n
  induction n with
  | zero =>
    intro s
    simp [read_lead, leadBytes, leadEvents]
  | succ m ih =>
    intro s
    rw [read_lead]
    simp only [envOk_wait, envOk_data]
    rw [ih]
    simp [leadBytes, leadEvents, St.mk.injEq]
    omega

/-- Claim C1: on the success path, a read of length `n + 3 ≥ 3` splits the
destination into a leading group of exactly `n = length − 3` bytes, each
read after one bounded `rbne` wait, followed by a trailing group of exactly
3 bytes produced by the exact sequence: bounded `btc` wait, ACK control set
to NAK, read trailing byte 0, `send_stop()`, read trailing byte 1, bounded
`rbne` wait, read trailing byte 2, bounded wait for STOP completion, ACK
control restored. -/
theorem c1_read_split (d : Nat → Nat) (addr rr n : Nat) (s : St) :
    read_op (envOk d) (rr + 1) addr (n + 3) s =
      (.ok (leadBytes d s.kd n ++ [d (s.kd + n), d (s.kd + n + 1), d (s.kd + n + 2)]),
       ⟨s.kw + n + 4, s.ks + 1, s.kd + n + 3⟩,
       [.sendStart, .waitFlag .sbsend .ok, .readStat0, .sendAddr addr true,
        .waitFlag .addsend .ok, .setAckAck, .readStat0, .readStat1] ++
         leadEvents d s.kd n ++
         [.waitFlag .btc .ok, .setAckNak, .readData (d (s.kd + n)), .sendStop,
          .readData (d (s.kd + n + 1)), .waitFlag .rbne .ok, .readData (d (s.kd + n + 2)),
          .waitStop true, .setAckAck]) ∧
    (leadBytes d s.kd n).length = (n + 3) - 3 ∧
    [d (s.kd + n), d (s.kd + n + 1), d (s.kd + n + 2)].length = 3 := by
  have e0 : send_start_and_wait (envOk d) (rr + 1) s =
      (.ok (), { s with kw := s.kw + 1 }, [.sendStart, .waitFlag .sbsend .ok]) := by
    rw [send_start_and_wait, ssw_aux_succ]
    simp [envOk]
  have e1 : send_addr_and_wait (envOk d) addr true { s with kw := s.kw + 1 } =
      (.ok (), { s with kw := s.kw + 1 + 1 },
       [.readStat0, .sendAddr addr true, .waitFlag .addsend .ok]) := by
    rw [send_addr_and_wait]
    simp [envOk]
  refine ⟨?_, by simp [leadBytes_length], by simp⟩
  rw [read_op, if_neg (by omega : ¬(n + 3 = 1)), if_neg (by omega : ¬(n + 3 = 2))]
  simp only [e0, e1]
  rw [if_neg (by omega : ¬(n + 3 < 3))]
  simp only [Nat.add_sub_cancel]
  rw [read_lead_envOk]
  simp only [envOk_wait, envOk_data, envOk_stop]
  simp [leadEvents, leadBytes, St.mk.injEq, List.append_assoc]
  omega

/-- Counterexample to claim C6 as stated: at `pclk1 = 255 MHz` (a valid
`u32` input) in standard mode at 100 kHz, the `as u8` cast in the code
truncates the rise-time value `256` to `0`, so the programmed registers
differ from the claim's untruncated formulas. -/
theorem c6_clock_counterexample :
    get_frequency (Mode.standard 100000) ≤ 400000 ∧
    0 < get_frequency (Mode.standard 100000) ∧
    init (Mode.standard 100000) 255000000 ≠
      some (claimed_init_c6 (Mode.standard 100000) 255000000) := by
  refine ⟨by norm_num [get_frequency], by norm_num [get_frequency], by decide⟩

/-- Claim C6 (amended): the clock-programming formulas of the claim hold
with the code's fixed-width casts made explicit (`pclk1_MHz` and the
divisor truncated to 16 bits, the rise-time value to 8 bits, the fast-mode
product `pclk1_MHz * 300` computed in wrapping 16-bit arithmetic); and
below those truncation thresholds they agree exactly with the claim's
untruncated formulas. -/
theorem c6_clock_programming (pclk1 f : Nat) (hf : 0 < f) (dc : DutyCycle) :
    init (.standard f) pclk1 =
      some [RegWrite.ctl1 (pclk1 / 1000000 % 2 ^ 16 % 2 ^ 8), .ctl0Disable,
            .rt ((pclk1 / 1000000 % 2 ^ 16 + 1) % 2 ^ 16 % 2 ^ 8),
            .ckcfg (max (pclk1 / (f * 2) % 2 ^ 16) 4) false false, .ctl0Enable] ∧
    init (.fast f dc) pclk1 =
      some [RegWrite.ctl1 (pclk1 / 1000000 % 2 ^ 16 % 2 ^ 8), .ctl0Disable,
            .rt ((pclk1 / 1000000 % 2 ^ 16 * 300 % 2 ^ 16 / 1000 + 1) % 2 ^ 8),
            .ckcfg
              (max ((pclk1 / (f * (if dc = DutyCycle.ratio2to1 then 3 else 25))) % 2 ^ 16) 1)
              (dc = DutyCycle.ratio16to9) true, .ctl0Enable] ∧
    (pclk1 / 1000000 + 1 < 2 ^ 8 → pclk1 / (f * 2) < 2 ^ 16 →
      init (.standard f) pclk1 = some (claimed_init_c6 (.standard f) pclk1)) ∧
    (pclk1 / 1000000 * 300 < 2 ^ 16 →
      pclk1 / (f * 3) < 2 ^ 16 → pclk1 / (f * 25) < 2 ^ 16 →
      init (.fast f dc) pclk1 = some (claimed_init_c6 (.fast f dc) pclk1)) := by
  have hfz : ¬(f = 0) := by omega
  refine ⟨?_, ?_, ?_, ?_⟩
  · simp [init, get_frequency, hfz]
  · cases dc <;> simp [init, get_frequency, hfz]
  · intro hrt hdiv
    simp [init, claimed_init_c6, get_frequency, hfz]
    refine ⟨by omega, by omega, ?_⟩
    have h5 : pclk1 / (f * 2) % 65536 = pclk1 / (f * 2) :=
      Nat.mod_eq_of_lt (by simpa using hdiv)
    rw [h5]
  · intro hrt h3 h25
    cases dc <;> simp [init, claimed_init_c6, get_frequency, hfz]
    · have ha : pclk1 / 1000000 * 300 % 65536 = pclk1 / 1000000 * 300 :=
        Nat.mod_eq_of_lt (by simpa using hrt)
      have h5 : pclk1 / (f * 3) % 65536 = pclk1 / (f * 3) :=
        Nat.mod_eq_of_lt (by simpa using h3)
      rw [ha, h5]
      have hb : pclk1 / 1000000 * 300 < 65536 := by simpa using hrt
      exact ⟨by omega, by omega, rfl⟩
    · have ha : pclk1 / 1000000 * 300 % 65536 = pclk1 / 1000000 * 300 :=
        Nat.mod_eq_of_lt (by simpa using hrt)
      have h5 : pclk1 / (f * 25) % 65536 = pclk1 / (f * 25) :=
        Nat.mod_eq_of_lt (by simpa using h25)
      rw [ha, h5]
      have hb : pclk1 / 1000000 * 300 < 65536 := by simpa using hrt
      exact ⟨by omega, by omega, rfl⟩

/-- Witness for C6 (amended): standard mode 100 kHz at an 8 MHz peripheral
clock programs rise-time 9 and divisor 40, matching the claim's formulas
below the truncation thresholds. -/
theorem c6_clock_programming_witness :
    init (.standard 100000) 8000000 = some (claimed_init_c6 (.standard 100000) 8000000) ∧
    init (.fast 400000 .ratio16to9) 48000000 =
      some (claimed_init_c6 (.fast 400000 .ratio16to9) 48000000) := by
  constructor
  · exact (c6_clock_programming 8000000 100000 (by norm_num) .ratio2to1).2.2.1
      (by norm_num) (by norm_num)
  · exact (c6_clock_programming 48000000 400000 (by norm_num) .ratio16to9).2.2.2
      (by norm_num) (by norm_num) (by norm_num)

/-- Counterexample to claim C8 as stated: `Standard { frequency: 0 }`
satisfies the claimed precondition `frequency ≤ 400 kHz`, yet construction
panics (integer division by zero in `init`) instead of succeeding. -/
theorem c8_construction_counterexample :
    get_frequency (Mode.standard 0) ≤ 400000 ∧
    create_internal (Mode.standard 0) 8000000 = none := by
  exact ⟨by decide, by decide⟩

/-- Claim C8 (amended): construction checks `frequency ≤ 400_000` and
panics when it is violated; for every mode with `0 < frequency ≤ 400 kHz`
construction succeeds and performs the clock programming of `init`. -/
theorem c8_construction (mode : Mode) (pclk1 : Nat) :
    (400000 < get_frequency mode → create_internal mode pclk1 = none) ∧
    (0 < get_frequency mode → get_frequency mode ≤ 400000 →
      create_internal mode pclk1 = init mode pclk1 ∧ (init mode pclk1).isSome) := by
  constructor
  · intro h
    simp [create_internal]
    intro h2
    omega
  · intro h0 h4
    refine ⟨by simp [create_internal, h4], ?_⟩
    simp [init]
    omega

/-- Witness for C8 (amended): 100 kHz standard mode constructs and
programs the clock; 500 kHz is rejected fatally. -/
theorem c8_construction_witness :
    create_internal (Mode.standard 100000) 8000000 = init (Mode.standard 100000) 8000000 ∧
    (init (Mode.standard 100000) 8000000).isSome ∧
    create_internal (Mode.standard 500000) 8000000 = none := by
  refine ⟨?_, ?_, ?_⟩
  · exact ((c8_construction (Mode.standard 100000) 8000000).2 (by norm_num [get_frequency])
      (by norm_num [get_frequency])).1
  · exact ((c8_construction (Mode.standard 100000) 8000000).2 (by norm_num [get_frequency])
      (by norm_num [get_frequency])).2
  · exact (c8_construction (Mode.standard 500000) 8000000).1 (by norm_num [get_frequency])

/-- Counterexample to claim C9 as stated: a read with an empty buffer whose
START wait decodes a bus error returns that transaction error (the error
propagates before the underflowing split is reached), so "never returns a
transaction error" is false. -/
theorem c9_read_empty_counterexample :
    (read_op envBus 1 80 0 ⟨0, 0, 0⟩).1 = .er (.other .bus) := by decide

/-- Claim C9 (amended): a read with an empty buffer falls into the same
branch as lengths ≥ 3 and can never return success: whenever the START and
address phases succeed it panics at the `buffer_len - 3` underflow in the
buffer split; a failing START or address phase still propagates its error.
-/
theorem c9_read_empty (env : Env) (retries addr : Nat) (s : St) :
    (∀ l, (read_op env retries addr 0 s).1 ≠ .ok l) ∧
    (1 ≤ retries → env.wait s.kw = Outcome.ok → env.wait (s.kw + 1) = Outcome.ok →
      (read_op env retries addr 0 s).1 = .panicked) := by
  constructor
  · intro l
    rcases h0 : (send_start_and_wait env retries s).1 with u | e | _
    · rcases h1 : (send_addr_and_wait env addr true
          (send_start_and_wait env retries s).2.1).1 with u2 | e2 | _ <;>
        simp [read_op, h0, h1]
    · simp [read_op, h0]
    · simp [read_op, h0]
  · intro hr h1 h2
    obtain ⟨rr, rfl⟩ : ∃ m, retries = m + 1 := ⟨retries - 1, by omega⟩
    have e0 : send_start_and_wait env (rr + 1) s =
        (.ok (), { s with kw := s.kw + 1 }, [.sendStart, .waitFlag .sbsend .ok]) := by
      rw [send_start_and_wait, ssw_aux_succ]
      simp [h1]
    have e1 : send_addr_and_wait env addr true { s with kw := s.kw + 1 } =
        (.ok (), { s with kw := s.kw + 1 + 1 },
         [.readStat0, .sendAddr addr true, .waitFlag .addsend .ok]) := by
      rw [send_addr_and_wait]
      simp [h2]
    simp [read_op, e0, e1]

/-- Witness for C9 (amended): with one retry and both phases succeeding, a
zero-length read panics. -/
theorem c9_read_empty_witness :
    (read_op (envOk fun _ => 0) 1 80 0 ⟨0, 0, 0⟩).1 = .panicked := by
  exact (c9_read_empty (envOk fun _ => 0) 1 80 ⟨0, 0, 0⟩).2 (by norm_num) rfl rfl

/-- Claim C7: `write_read` is the exact composition described by the spec:
no bus operation and immediate success when both `bytes` and the buffer
are empty; just the read sequence when only `bytes` is empty; on non-empty
`bytes`, `write_without_stop` first, its failure propagating unchanged,
then the read sequence when the buffer is non-empty, and otherwise a
`send_stop()` plus bounded STOP wait to close the transaction. -/
theorem c7_write_read_composition (env : Env) (retries addr len : Nat)
    (bytes : List Nat) (s : St) :
    (write_read env retries addr [] 0 s = (.ok [], s, [])) ∧
    (len ≠ 0 → write_read env retries addr [] len s = read_op env retries addr len s) ∧
    (bytes ≠ [] → ∀ e, (write_without_stop env retries addr bytes s).1 = .er e →
      write_read env retries addr bytes len s =
        (.er e, (write_without_stop env retries addr bytes s).2.1,
         (write_without_stop env retries addr bytes s).2.2)) ∧
    (bytes ≠ [] → (write_without_stop env retries addr bytes s).1 = .ok () → len ≠ 0 →
      write_read env retries addr bytes len s =
        ((read_op env retries addr len (write_without_stop env retries addr bytes s).2.1).1,
         (read_op env retries addr len (write_without_stop env retries addr bytes s).2.1).2.1,
         (write_without_stop env retries addr bytes s).2.2 ++
           (read_op env retries addr len
             (write_without_stop env retries addr bytes s).2.1).2.2)) ∧
    (bytes ≠ [] → (write_without_stop env retries addr bytes s).1 = .ok () → len = 0 →
      write_read env retries addr bytes len s =
        ((if env.stopOk (write_without_stop env retries addr bytes s).2.1.ks then .ok []
          else .er .wouldBlock),
         { (write_without_stop env retries addr bytes s).2.1 with
             ks := (write_without_stop env retries addr bytes s).2.1.ks + 1 },
         (write_without_stop env retries addr bytes s).2.2 ++
           [.sendStop,
            .waitStop (env.stopOk (write_without_stop env retries addr bytes s).2.1.ks)])) := by
  refine ⟨rfl, ?_, ?_, ?_, ?_⟩
  · intro hlen
    simp [write_read, hlen]
  · intro hb e he
    rcases bytes with _ | ⟨b, rest⟩
    · exact absurd rfl hb
    · simp [write_read, he]
  · intro hb hok hlen
    rcases bytes with _ | ⟨b, rest⟩
    · exact absurd rfl hb
    · simp [write_read, hok, hlen]
  · intro hb hok hlen
    rcases bytes with _ | ⟨b, rest⟩
    · exact absurd rfl hb
    · subst hlen
      simp [write_read, hok]

/-- Witness for C7: with an empty write phase and a one-byte buffer,
`write_read` is exactly the read sequence. -/
theorem c7_write_read_composition_witness :
    write_read (envOk fun _ => 0) 1 80 [] 1 ⟨0, 0, 0⟩ =
      read_op (envOk fun _ => 0) 1 80 1 ⟨0, 0, 0⟩ := by
  exact (c7_write_read_composition (envOk fun _ => 0) 1 80 1 [] ⟨0, 0, 0⟩).2.1
    (by norm_num)

end I2cModel
